import Mathlib

/-!
Shallow embedding of the collaborative "room" subsystem of the repository
(`api/admin/rooms.ts`): the `RoomState` record, the coordinator operations
(create, join, next_turn, pause_turn, resume_turn, stop_turn, submit_text,
delete_room, get_state) and the store-level expiry check `getRoomWithExpiry`.
Timestamps are epoch milliseconds modelled as `Int`; the version counter is a
`Nat`.  Each handler branch becomes a pure function from the current stored
value and the request inputs to an `Except` of the saved state.
-/

namespace Fantasmia

/-- `RoomMode` from `rooms.ts`: enum of the three activity modes. -/
inductive RoomMode where
  | CONTINUA_TU
  | CAMPBELL
  | PROPP
deriving DecidableEq, Repr

/-- `RoomState` from `rooms.ts`: the single mutable, versioned record per room. -/
structure RoomState where
  room_name : String
  activity_title : String
  room_mode : RoomMode
  prompt_seed : String
  story_so_far : String
  writers : List String
  current_writer_index : Nat
  turn_ends_at : Option Int
  turn_paused : Bool
  turn_remaining_ms : Option Int
  version : Nat
  updated_at : Int
  expires_at : Int
deriving DecidableEq, Repr

/-- Room-level errors surfaced by the handler branches, tagged by the HTTP
class the code returns: 404, 410, 409, 403. -/
inductive RoomErr where
  | notFound
  | expired
  | conflict (msg : String)
  | forbidden (msg : String)
deriving DecidableEq, Repr

/-- Strip leading and trailing whitespace from a character list: an
executable model of the JS `String.prototype.trim`. -/
def trimChars (l : List Char) : List Char :=
  ((l.dropWhile Char.isWhitespace).reverse.dropWhile Char.isWhitespace).reverse

/-- `normalizeKey` from `rooms.ts`: `x ? String(x).trim() : ""`; on a string
input this is just `trim`. -/
def normalizeKey (s : String) : String := ⟨trimChars s.data⟩

/-- `clampNumber` from `rooms.ts`, restricted to integer inputs: a missing
input yields the fallback unclamped; a present input is clamped to `[lo, hi]`. -/
def clampNumber (x : Option Int) (fallback lo hi : Int) : Int :=
  match x with
  | none => fallback
  | some n => if n < lo then lo else if n > hi then hi else n

/-- `bump` from `rooms.ts`: `st.version = (st.version || 0) + 1` (on a `Nat`
this is exactly `+ 1`) and `st.updated_at = now()`. -/
def bump (nowMs : Int) (st : RoomState) : RoomState :=
  { st with version := st.version + 1, updated_at := nowMs }

/-- `getRoomWithExpiry` from `rooms.ts`, on the stored value of one room:
absent record gives `NotFound`; a record with `now() > expires_at` is treated
as expired (and deleted from the store by the caller); otherwise live. -/
def getRoomWithExpiry (nowMs : Int) (r : Option RoomState) : Except RoomErr RoomState :=
  match r with
  | none => .error .notFound
  | some st => if nowMs > st.expires_at then .error .expired else .ok st

/-- Request body of the `create` action: the fields the handler reads. -/
structure CreateBody where
  room_name : String
  activity_title : String
  room_mode : Option RoomMode
  ttl_h : Option Int
deriving DecidableEq, Repr

/-- The `create` branch of the handler: the room code is the trimmed
`room_name` when non-empty, else the random hex string (modelled as the
parameter `randHex`); `ttl_h` is clamped to `[1, 48]` with fallback 12; the
new state is idle with `version = 1`. Returns the code and the state. -/
def createState (nowMs : Int) (randHex : String) (b : CreateBody) : String × RoomState :=
  let room := if normalizeKey b.room_name ≠ "" then normalizeKey b.room_name else randHex
  let ttl_h := clampNumber b.ttl_h 12 1 48
  (room,
    { room_name := room
      activity_title := if normalizeKey b.activity_title ≠ "" then normalizeKey b.activity_title else room
      room_mode := b.room_mode.getD .CONTINUA_TU
      prompt_seed := ""
      story_so_far := ""
      writers := []
      current_writer_index := 0
      turn_ends_at := none
      turn_paused := false
      turn_remaining_ms := none
      version := 1
      updated_at := nowMs
      expires_at := nowMs + ttl_h * 3600 * 1000 })

/-- The shared key-value store restricted to room records: room code to
stored `RoomState`. -/
def Store := String → Option RoomState

/-- `saveRoom` as it affects the room key: write the record under the code
(the TTL given to the store and the index set are not modelled). -/
def saveRoom (s : Store) (room : String) (st : RoomState) : Store :=
  fun k => if k = room then some st else s k

/-- The full `create` branch at store level: build the state and save it
unconditionally under the chosen code. Returns the new store, the code and
the reported `expires_at`. -/
def createOp (nowMs : Int) (randHex : String) (b : CreateBody) (s : Store) :
    Store × String × Int :=
  let p := createState nowMs randHex b
  (saveRoom s p.1 p.2, p.1, p.2.expires_at)

/-- The `join` branch after the room is found live: append the synthesized
writer `Writer N` with `N = writers.length + 1`, then `bump`. -/
def joinCore (nowMs : Int) (st : RoomState) : RoomState :=
  let writer := "Writer " ++ toString (st.writers.length + 1)
  bump nowMs { st with writers := st.writers ++ [writer] }

/-- The `join` branch: expiry check then `joinCore`. -/
def joinOp (nowMs : Int) (r : Option RoomState) : Except RoomErr RoomState :=
  match getRoomWithExpiry nowMs r with
  | .error e => .error e
  | .ok st => .ok (joinCore nowMs st)

/-- The `next_turn` branch after the room is found live: `Conflict` when
`writers` is empty, else advance the index round-robin, clear pause state,
start a turn of the clamped duration, `bump`. -/
def nextTurnCore (nowMs : Int) (turn_s : Option Int) (st : RoomState) :
    Except RoomErr RoomState :=
  if st.writers.length = 0 then .error (.conflict "no writers yet")
  else
    let turnSeconds := clampNumber turn_s 180 15 600
    .ok (bump nowMs
      { st with
        current_writer_index := (st.current_writer_index + 1) % st.writers.length
        turn_paused := false
        turn_remaining_ms := none
        turn_ends_at := some (nowMs + turnSeconds * 1000) })

/-- The `next_turn` branch: expiry check then `nextTurnCore`. -/
def nextTurnOp (nowMs : Int) (turn_s : Option Int) (r : Option RoomState) :
    Except RoomErr RoomState :=
  match getRoomWithExpiry nowMs r with
  | .error e => .error e
  | .ok st => nextTurnCore nowMs turn_s st

/-- The `pause_turn` branch after the room is found live: `Conflict` when
already paused or no active turn; else bank `max(0, turn_ends_at - now)` in
`turn_remaining_ms`, clear `turn_ends_at`, set `turn_paused`, `bump`. -/
def pauseTurnCore (nowMs : Int) (st : RoomState) : Except RoomErr RoomState :=
  if st.turn_paused then .error (.conflict "already paused")
  else
    match st.turn_ends_at with
    | none => .error (.conflict "no active turn")
    | some e =>
      let remaining := max 0 (e - nowMs)
      .ok (bump nowMs
        { st with turn_paused := true, turn_remaining_ms := some remaining, turn_ends_at := none })

/-- The `pause_turn` branch: expiry check then `pauseTurnCore`. -/
def pauseTurnOp (nowMs : Int) (r : Option RoomState) : Except RoomErr RoomState :=
  match getRoomWithExpiry nowMs r with
  | .error e => .error e
  | .ok st => pauseTurnCore nowMs st

/-- The `resume_turn` branch after the room is found live: `Conflict` unless
paused with a banked remainder; else restart the clock at
`now + max(0, turn_remaining_ms)`, clear pause state, `bump`. -/
def resumeTurnCore (nowMs : Int) (st : RoomState) : Except RoomErr RoomState :=
  match st.turn_paused, st.turn_remaining_ms with
  | true, some r =>
    let remaining := max 0 r
    .ok (bump nowMs
      { st with turn_paused := false, turn_remaining_ms := none,
                turn_ends_at := some (nowMs + remaining) })
  | _, _ => .error (.conflict "not paused")

/-- The `resume_turn` branch: expiry check then `resumeTurnCore`. -/
def resumeTurnOp (nowMs : Int) (r : Option RoomState) : Except RoomErr RoomState :=
  match getRoomWithExpiry nowMs r with
  | .error e => .error e
  | .ok st => resumeTurnCore nowMs st

/-- The `stop_turn` branch after the room is found live: unconditionally
clear all turn fields, `bump`. -/
def stopTurnCore (nowMs : Int) (st : RoomState) : RoomState :=
  bump nowMs
    { st with turn_ends_at := none, turn_paused := false, turn_remaining_ms := none }

/-- The `stop_turn` branch: expiry check then `stopTurnCore`. -/
def stopTurnOp (nowMs : Int) (r : Option RoomState) : Except RoomErr RoomState :=
  match getRoomWithExpiry nowMs r with
  | .error e => .error e
  | .ok st => .ok (stopTurnCore nowMs st)

/-- The `submit_text` branch after the room is found live: `Conflict` when
paused, when no active turn, or when the deadline has lapsed; `Forbidden`
when the trimmed caller id is empty or differs from
`writers[current_writer_index]`; else append the text to `story_so_far`
(newline-joined), close the turn, advance the index, `bump`. -/
def submitTextCore (nowMs : Int) (writer_id text : String) (st : RoomState) :
    Except RoomErr RoomState :=
  if st.turn_paused then .error (.conflict "turn paused")
  else
    match st.turn_ends_at with
    | none => .error (.conflict "no active turn")
    | some e =>
      if e ≤ nowMs then .error (.conflict "turn expired")
      else
        let wid := normalizeKey writer_id
        if wid = "" ∨ st.writers[st.current_writer_index]? ≠ some wid then
          .error (.forbidden "not your turn")
        else
          let story := st.story_so_far ++ (if st.story_so_far ≠ "" then "\n" else "") ++ text
          let idx :=
            if st.writers.length > 0 then
              (st.current_writer_index + 1) % st.writers.length
            else st.current_writer_index
          .ok (bump nowMs
            { st with
              story_so_far := story
              turn_ends_at := none
              turn_paused := false
              turn_remaining_ms := none
              current_writer_index := idx })

/-- The `submit_text` branch: expiry check then `submitTextCore`. -/
def submitTextOp (nowMs : Int) (writer_id text : String) (r : Option RoomState) :
    Except RoomErr RoomState :=
  match getRoomWithExpiry nowMs r with
  | .error e => .error e
  | .ok st => submitTextCore nowMs writer_id text st

/-- The `delete_room` branch after the room is found live: mark
`expires_at = now - 1`, set `turn_paused = true`, null the other turn
fields, `bump`, save. -/
def deleteRoomCore (nowMs : Int) (st : RoomState) : RoomState :=
  bump nowMs
    { st with
      expires_at := nowMs - 1
      turn_paused := true
      turn_ends_at := none
      turn_remaining_ms := none }

/-- The `delete_room` branch as it affects the stored value of the room: a
live room is replaced by the marked-expired state; a missing or expired room
is left absent (the handler replies success without saving). -/
def deleteRoomOp (nowMs : Int) (r : Option RoomState) : Option RoomState :=
  match getRoomWithExpiry nowMs r with
  | .error _ => none
  | .ok st => some (deleteRoomCore nowMs st)

/-- The `get_state` branch: pure read through the expiry check. -/
def getStateOp (nowMs : Int) (r : Option RoomState) : Except RoomErr RoomState :=
  getRoomWithExpiry nowMs r

/-- One successful mutating coordinator operation on the stored state of a
single room: the saved state produced by a handler branch that found the
room live and replied success. The operation time and request inputs are
existential: any call the handler would accept is a step. -/
inductive Step : RoomState → RoomState → Prop where
  | join (nowMs : Int) (st st' : RoomState) :
      joinOp nowMs (some st) = .ok st' → Step st st'
  | next_turn (nowMs : Int) (turn_s : Option Int) (st st' : RoomState) :
      nextTurnOp nowMs turn_s (some st) = .ok st' → Step st st'
  | pause_turn (nowMs : Int) (st st' : RoomState) :
      pauseTurnOp nowMs (some st) = .ok st' → Step st st'
  | resume_turn (nowMs : Int) (st st' : RoomState) :
      resumeTurnOp nowMs (some st) = .ok st' → Step st st'
  | stop_turn (nowMs : Int) (st st' : RoomState) :
      stopTurnOp nowMs (some st) = .ok st' → Step st st'
  | submit_text (nowMs : Int) (writer_id text : String) (st st' : RoomState) :
      submitTextOp nowMs writer_id text (some st) = .ok st' → Step st st'
  | delete_room (nowMs : Int) (st st' : RoomState) :
      deleteRoomOp nowMs (some st) = some st' → Step st st'

/-- Room states reachable from a `create` by exactly `n` successful mutating
operations. -/
inductive ReachN : RoomState → Nat → Prop where
  | create (nowMs : Int) (randHex : String) (b : CreateBody) :
      ReachN (createState nowMs randHex b).2 0
  | step (st st' : RoomState) (n : Nat) :
      ReachN st n → Step st st' → ReachN st' (n + 1)

/-- Room states reachable by some sequence of successful coordinator
operations starting from a `create`. -/
def Reachable (st : RoomState) : Prop := ∃ n, ReachN st n

/-- Number of the three spec modes (active / paused / idle) a state
satisfies: active is `turn_ends_at != null ∧ !turn_paused`, paused is
`turn_paused ∧ turn_remaining_ms != null`, idle is
`turn_ends_at == null ∧ !turn_paused`. -/
def ModeCount (st : RoomState) : Nat :=
  (if st.turn_ends_at ≠ none ∧ st.turn_paused = false then 1 else 0) +
  (if st.turn_paused = true ∧ st.turn_remaining_ms ≠ none then 1 else 0) +
  (if st.turn_ends_at = none ∧ st.turn_paused = false then 1 else 0)

/-- The spec's tri-modal invariant: exactly one of active / paused / idle. -/
def ModeInvariant (st : RoomState) : Prop := ModeCount st = 1

/-- The turn-field shape saved by `delete_room`: paused flag set while both
`turn_remaining_ms` and `turn_ends_at` are null — none of the three modes. -/
def DeletedTurnShape (st : RoomState) : Prop :=
  st.turn_paused = true ∧ st.turn_remaining_ms = none ∧ st.turn_ends_at = none

theorem getRoomWithExpiry_some_ok_iff (nowMs : Int) (st st' : RoomState) :
    getRoomWithExpiry nowMs (some st) = .ok st' ↔
      ¬ nowMs > st.expires_at ∧ st' = st := by
  unfold getRoomWithExpiry
  by_cases hn : nowMs > st.expires_at <;> simp [hn, eq_comm]

theorem joinOp_ok_iff (nowMs : Int) (st st' : RoomState) :
    joinOp nowMs (some st) = .ok st' ↔
      ¬ nowMs > st.expires_at ∧ st' = joinCore nowMs st := by
  unfold joinOp getRoomWithExpiry
  by_cases hn : nowMs > st.expires_at <;> simp [hn, eq_comm]

theorem nextTurnOp_ok_iff (nowMs : Int) (turn_s : Option Int) (st st' : RoomState) :
    nextTurnOp nowMs turn_s (some st) = .ok st' ↔
      ¬ nowMs > st.expires_at ∧ st.writers.length ≠ 0 ∧
      st' = bump nowMs
        { st with
          current_writer_index := (st.current_writer_index + 1) % st.writers.length
          turn_paused := false
          turn_remaining_ms := none
          turn_ends_at := some (nowMs + clampNumber turn_s 180 15 600 * 1000) } := by
  unfold nextTurnOp getRoomWithExpiry nextTurnCore
  by_cases hn : nowMs > st.expires_at
  · simp [hn]
  · by_cases hw : st.writers.length = 0 <;> simp [hn, hw, eq_comm]

theorem pauseTurnOp_ok_iff (nowMs : Int) (st st' : RoomState) :
    pauseTurnOp nowMs (some st) = .ok st' ↔
      ¬ nowMs > st.expires_at ∧ st.turn_paused = false ∧
      ∃ e, st.turn_ends_at = some e ∧
        st' = bump nowMs
          { st with
            turn_paused := true
            turn_remaining_ms := some (max 0 (e - nowMs))
            turn_ends_at := none } := by
  unfold pauseTurnOp getRoomWithExpiry pauseTurnCore
  by_cases hn : nowMs > st.expires_at
  · simp [hn]
  · cases hp : st.turn_paused
    · cases he : st.turn_ends_at <;> simp [hn, hp, he, eq_comm]
    · simp [hn, hp]

theorem resumeTurnOp_ok_iff (nowMs : Int) (st st' : RoomState) :
    resumeTurnOp nowMs (some st) = .ok st' ↔
      ¬ nowMs > st.expires_at ∧ st.turn_paused = true ∧
      ∃ r, st.turn_remaining_ms = some r ∧
        st' = bump nowMs
          { st with
            turn_paused := false
            turn_remaining_ms := none
            turn_ends_at := some (nowMs + max 0 r) } := by
  unfold resumeTurnOp getRoomWithExpiry resumeTurnCore
  by_cases hn : nowMs > st.expires_at
  · simp [hn]
  · cases hp : st.turn_paused
    · simp [hn, hp]
    · cases hr : st.turn_remaining_ms <;> simp [hn, hp, hr, eq_comm]

theorem stopTurnOp_ok_iff (nowMs : Int) (st st' : RoomState) :
    stopTurnOp nowMs (some st) = .ok st' ↔
      ¬ nowMs > st.expires_at ∧ st' = stopTurnCore nowMs st := by
  unfold stopTurnOp getRoomWithExpiry
  by_cases hn : nowMs > st.expires_at <;> simp [hn, eq_comm]

theorem submitTextOp_ok_iff (nowMs : Int) (writer_id text : String) (st st' : RoomState) :
    submitTextOp nowMs writer_id text (some st) = .ok st' ↔
      ¬ nowMs > st.expires_at ∧ st.turn_paused = false ∧
      ∃ e, st.turn_ends_at = some e ∧ nowMs < e ∧
        normalizeKey writer_id ≠ "" ∧
        st.writers[st.current_writer_index]? = some (normalizeKey writer_id) ∧
        st' = bump nowMs
          { st with
            story_so_far :=
              st.story_so_far ++ (if st.story_so_far ≠ "" then "\n" else "") ++ text
            turn_ends_at := none
            turn_paused := false
            turn_remaining_ms := none
            current_writer_index :=
              if st.writers.length > 0 then
                (st.current_writer_index + 1) % st.writers.length
              else st.current_writer_index } := by
  unfold submitTextOp getRoomWithExpiry submitTextCore
  by_cases hn : nowMs > st.expires_at
  · simp [hn]
  · cases hp : st.turn_paused
    · cases he : st.turn_ends_at
      · simp [hn, hp, he]
      · rename_i e
        by_cases hl : e ≤ nowMs
        · simp [hn, hp, he, hl]
        · by_cases hwid : normalizeKey writer_id = "" ∨
              st.writers[st.current_writer_index]? ≠ some (normalizeKey writer_id)
          · rcases hwid with hwid | hwid <;> simp [hn, hp, he, hl, hwid]
          · push_neg at hwid
            simp [hn, hp, he, hl, hwid.1, hwid.2, eq_comm]
            exact fun _ => not_le.mp hl
    · simp [hn, hp]

theorem deleteRoomOp_some_iff (nowMs : Int) (st st' : RoomState) :
    deleteRoomOp nowMs (some st) = some st' ↔
      ¬ nowMs > st.expires_at ∧ st' = deleteRoomCore nowMs st := by
  unfold deleteRoomOp getRoomWithExpiry
  by_cases hn : nowMs > st.expires_at <;> simp [hn, eq_comm]

theorem createState_modeInvariant (nowMs : Int) (randHex : String) (b : CreateBody) :
    ModeInvariant (createState nowMs randHex b).2 := by
  simp [ModeInvariant, ModeCount, createState]

theorem step_modeOrDeleted {st st' : RoomState} (hs : Step st st')
    (h : ModeInvariant st ∨ DeletedTurnShape st) :
    ModeInvariant st' ∨ DeletedTurnShape st' := by
  cases hs with
  | join nowMs _ _ heq =>
    obtain ⟨-, rfl⟩ := (joinOp_ok_iff nowMs st st').mp heq
    rcases h with h | h
    · exact Or.inl (by simpa [ModeInvariant, ModeCount, joinCore, bump] using h)
    · exact Or.inr (by simpa [DeletedTurnShape, joinCore, bump] using h)
  | next_turn nowMs turn_s _ _ heq =>
    obtain ⟨-, -, rfl⟩ := (nextTurnOp_ok_iff nowMs turn_s st st').mp heq
    exact Or.inl (by simp [ModeInvariant, ModeCount, bump])
  | pause_turn nowMs _ _ heq =>
    obtain ⟨-, -, e, -, rfl⟩ := (pauseTurnOp_ok_iff nowMs st st').mp heq
    exact Or.inl (by simp [ModeInvariant, ModeCount, bump])
  | resume_turn nowMs _ _ heq =>
    obtain ⟨-, -, r, -, rfl⟩ := (resumeTurnOp_ok_iff nowMs st st').mp heq
    exact Or.inl (by simp [ModeInvariant, ModeCount, bump])
  | stop_turn nowMs _ _ heq =>
    obtain ⟨-, rfl⟩ := (stopTurnOp_ok_iff nowMs st st').mp heq
    exact Or.inl (by simp [ModeInvariant, ModeCount, stopTurnCore, bump])
  | submit_text nowMs writer_id text _ _ heq =>
    obtain ⟨-, -, e, -, -, -, -, rfl⟩ := (submitTextOp_ok_iff nowMs writer_id text st st').mp heq
    exact Or.inl (by simp [ModeInvariant, ModeCount, bump])
  | delete_room nowMs _ _ heq =>
    obtain ⟨-, rfl⟩ := (deleteRoomOp_some_iff nowMs st st').mp heq
    exact Or.inr (by simp [DeletedTurnShape, deleteRoomCore, bump])

theorem reachable_modeOrDeleted {st : RoomState} (h : Reachable st) :
    ModeInvariant st ∨ DeletedTurnShape st := by
  obtain ⟨n, hr⟩ := h
  induction hr with
  | create nowMs randHex b => exact Or.inl (createState_modeInvariant nowMs randHex b)
  | step s s2 n hr hs ih => exact step_modeOrDeleted hs ih

/-- The spec's index range invariant: 0 when `writers` is empty, a valid
index into `writers` otherwise. -/
def IndexInvariant (st : RoomState) : Prop :=
  (st.writers = [] → st.current_writer_index = 0) ∧
  (st.writers ≠ [] → st.current_writer_index < st.writers.length)

theorem step_indexInvariant {st st' : RoomState} (hs : Step st st')
    (h : IndexInvariant st) : IndexInvariant st' := by
  obtain ⟨h0, hlt⟩ := h
  cases hs with
  | join nowMs _ _ heq =>
    obtain ⟨-, rfl⟩ := (joinOp_ok_iff nowMs st st').mp heq
    constructor
    · intro hnil
      simp [joinCore, bump] at hnil
    · intro _
      simp only [joinCore, bump, List.length_append, List.length_cons, List.length_nil]
      rcases eq_or_ne st.writers [] with hw | hw
      · simp [h0 hw, hw]
      · have := hlt hw
        omega
  | next_turn nowMs turn_s _ _ heq =>
    obtain ⟨-, hw, rfl⟩ := (nextTurnOp_ok_iff nowMs turn_s st st').mp heq
    constructor
    · intro hnil
      simp [bump] at hnil
      have hz : st.writers.length = 0 := by rw [hnil]; rfl
      exact absurd hz hw
    · intro _
      simp only [bump]
      exact Nat.mod_lt _ (Nat.pos_of_ne_zero hw)
  | pause_turn nowMs _ _ heq =>
    obtain ⟨-, -, e, -, rfl⟩ := (pauseTurnOp_ok_iff nowMs st st').mp heq
    exact ⟨fun hnil => h0 hnil, fun hw => hlt hw⟩
  | resume_turn nowMs _ _ heq =>
    obtain ⟨-, -, r, -, rfl⟩ := (resumeTurnOp_ok_iff nowMs st st').mp heq
    exact ⟨fun hnil => h0 hnil, fun hw => hlt hw⟩
  | stop_turn nowMs _ _ heq =>
    obtain ⟨-, rfl⟩ := (stopTurnOp_ok_iff nowMs st st').mp heq
    exact ⟨fun hnil => h0 hnil, fun hw => hlt hw⟩
  | submit_text nowMs writer_id text _ _ heq =>
    obtain ⟨-, -, e, -, -, -, hget, rfl⟩ :=
      (submitTextOp_ok_iff nowMs writer_id text st st').mp heq
    have hpos : 0 < st.writers.length := by
      rcases Nat.eq_zero_or_pos st.writers.length with hz | hp
      · rw [List.length_eq_zero] at hz
        simp [hz] at hget
      · exact hp
    constructor
    · intro hnil
      simp [bump] at hnil
      rw [hnil] at hpos
      simp at hpos
    · intro _
      simp only [bump, hpos, if_pos]
      exact Nat.mod_lt _ hpos
  | delete_room nowMs _ _ heq =>
    obtain ⟨-, rfl⟩ := (deleteRoomOp_some_iff nowMs st st').mp heq
    exact ⟨fun hnil => h0 hnil, fun hw => hlt hw⟩

theorem reachable_indexInvariant {st : RoomState} (h : Reachable st) :
    IndexInvariant st := by
  obtain ⟨n, hr⟩ := h
  induction hr with
  | create nowMs randHex b => exact ⟨fun _ => rfl, by simp [createState]⟩
  | step s s2 n hr hs ih => exact step_indexInvariant hs ih

theorem writerName_ne_empty (s : String) : "Writer " ++ s ≠ "" := by
  intro h
  have hlen := congrArg String.length h
  rw [String.length_append] at hlen
  have h7 : "Writer ".length = 7 := rfl
  have h0 : String.length "" = 0 := rfl
  omega

/-- Every writer identifier stored in the room is non-empty (all are of the
synthesized `Writer N` form). -/
def WritersNonempty (st : RoomState) : Prop := ∀ w ∈ st.writers, w ≠ ""

theorem step_writersNonempty {st st' : RoomState} (hs : Step st st')
    (h : WritersNonempty st) : WritersNonempty st' := by
  cases hs with
  | join nowMs _ _ heq =>
    obtain ⟨-, rfl⟩ := (joinOp_ok_iff nowMs st st').mp heq
    intro w hw
    simp only [joinCore, bump, List.mem_append, List.mem_singleton] at hw
    rcases hw with hw | hw
    · exact h w hw
    · rw [hw]
      exact writerName_ne_empty _
  | next_turn nowMs turn_s _ _ heq =>
    obtain ⟨-, -, rfl⟩ := (nextTurnOp_ok_iff nowMs turn_s st st').mp heq
    exact h
  | pause_turn nowMs _ _ heq =>
    obtain ⟨-, -, e, -, rfl⟩ := (pauseTurnOp_ok_iff nowMs st st').mp heq
    exact h
  | resume_turn nowMs _ _ heq =>
    obtain ⟨-, -, r, -, rfl⟩ := (resumeTurnOp_ok_iff nowMs st st').mp heq
    exact h
  | stop_turn nowMs _ _ heq =>
    obtain ⟨-, rfl⟩ := (stopTurnOp_ok_iff nowMs st st').mp heq
    exact h
  | submit_text nowMs writer_id text _ _ heq =>
    obtain ⟨-, -, e, -, -, -, -, rfl⟩ :=
      (submitTextOp_ok_iff nowMs writer_id text st st').mp heq
    exact h
  | delete_room nowMs _ _ heq =>
    obtain ⟨-, rfl⟩ := (deleteRoomOp_some_iff nowMs st st').mp heq
    exact h

theorem reachable_writersNonempty {st : RoomState} (h : Reachable st) :
    WritersNonempty st := by
  obtain ⟨n, hr⟩ := h
  induction hr with
  | create nowMs randHex b =>
    intro w hw
    simp [createState] at hw
  | step s s2 n hr hs ih => exact step_writersNonempty hs ih

theorem step_version {st st' : RoomState} (hs : Step st st') :
    st'.version = st.version + 1 := by
  cases hs with
  | join nowMs _ _ heq =>
    obtain ⟨-, rfl⟩ := (joinOp_ok_iff nowMs st st').mp heq
    simp [joinCore, bump]
  | next_turn nowMs turn_s _ _ heq =>
    obtain ⟨-, -, rfl⟩ := (nextTurnOp_ok_iff nowMs turn_s st st').mp heq
    simp [bump]
  | pause_turn nowMs _ _ heq =>
    obtain ⟨-, -, e, -, rfl⟩ := (pauseTurnOp_ok_iff nowMs st st').mp heq
    simp [bump]
  | resume_turn nowMs _ _ heq =>
    obtain ⟨-, -, r, -, rfl⟩ := (resumeTurnOp_ok_iff nowMs st st').mp heq
    simp [bump]
  | stop_turn nowMs _ _ heq =>
    obtain ⟨-, rfl⟩ := (stopTurnOp_ok_iff nowMs st st').mp heq
    simp [stopTurnCore, bump]
  | submit_text nowMs writer_id text _ _ heq =>
    obtain ⟨-, -, e, -, -, -, -, rfl⟩ :=
      (submitTextOp_ok_iff nowMs writer_id text st st').mp heq
    simp [bump]
  | delete_room nowMs _ _ heq =>
    obtain ⟨-, rfl⟩ := (deleteRoomOp_some_iff nowMs st st').mp heq
    simp [deleteRoomCore, bump]

theorem reachN_version {st : RoomState} {n : Nat} (h : ReachN st n) :
    st.version = n + 1 := by
  induction h with
  | create nowMs randHex b => simp [createState]
  | step s s2 n hr hs ih => rw [step_version hs, ih]

/-- `k` consecutive successful `next_turn` calls on the same room. -/
inductive NextTurnChain : RoomState → Nat → RoomState → Prop where
  | refl (st : RoomState) : NextTurnChain st 0 st
  | step (st st1 st2 : RoomState) (k : Nat) (nowMs : Int) (turn_s : Option Int) :
      NextTurnChain st k st1 → nextTurnOp nowMs turn_s (some st1) = .ok st2 →
      NextTurnChain st (k + 1) st2

theorem nextTurnChain_writers {st : RoomState} {k : Nat} {st' : RoomState}
    (h : NextTurnChain st k st') : st'.writers = st.writers := by
  induction h with
  | refl => rfl
  | step s1 s2 k nowMs turn_s hc hop ih =>
    obtain ⟨-, -, rfl⟩ := (nextTurnOp_ok_iff nowMs turn_s s1 s2).mp hop
    simpa [bump] using ih

theorem nextTurnChain_index {st : RoomState} {k : Nat} {st' : RoomState}
    (h : NextTurnChain st k st') :
    (k = 0 ∧ st' = st) ∨
    (0 < k ∧ st'.current_writer_index =
      (st.current_writer_index + k) % st.writers.length) := by
  induction h with
  | refl => exact Or.inl ⟨rfl, rfl⟩
  | step s1 s2 k nowMs turn_s hc hop ih =>
    have hws : s1.writers = st.writers := nextTurnChain_writers hc
    obtain ⟨-, -, rfl⟩ := (nextTurnOp_ok_iff nowMs turn_s s1 s2).mp hop
    refine Or.inr ⟨Nat.succ_pos k, ?_⟩
    rcases ih with ⟨hk, rfl⟩ | ⟨-, hidx⟩
    · simp [bump, hws, hk]
    · simp only [bump, hws, hidx]
      rw [Nat.mod_add_mod, Nat.add_assoc]

/-- A sample `create` request body used for concrete evaluations. -/
def demoBody : CreateBody :=
  { room_name := "demo", activity_title := "", room_mode := none, ttl_h := some 1 }

/-- The room state created at time 0 from `demoBody` (expires at 3600000). -/
def demoSt0 : RoomState := (createState 0 "a1b2c3" demoBody).2

/-- `demoSt0` after one successful `join` at time 5. -/
def demoSt1 : RoomState := joinCore 5 demoSt0

/-- `demoSt0` after a successful `delete_room` at time 7. -/
def demoDeleted : RoomState := deleteRoomCore 7 demoSt0

theorem demo_reach0 : ReachN demoSt0 0 := ReachN.create 0 "a1b2c3" demoBody

theorem demo_step01 : Step demoSt0 demoSt1 :=
  Step.join 5 demoSt0 demoSt1 rfl

theorem demo_reach1 : ReachN demoSt1 1 :=
  ReachN.step demoSt0 demoSt1 0 demo_reach0 demo_step01

theorem demo_step_delete : Step demoSt0 demoDeleted :=
  Step.delete_room 7 demoSt0 demoDeleted rfl

theorem demo_reach_deleted : ReachN demoDeleted 1 :=
  ReachN.step demoSt0 demoDeleted 0 demo_reach0 demo_step_delete

/-- `demoSt1` after a successful `next_turn` at time 10 with `turn_s = 60`:
one writer, index 0, turn deadline 60010. -/
def demoSt2 : RoomState :=
  bump 10
    { demoSt1 with
      current_writer_index := (demoSt1.current_writer_index + 1) % demoSt1.writers.length
      turn_paused := false
      turn_remaining_ms := none
      turn_ends_at := some (10 + clampNumber (some 60) 180 15 600 * 1000) }

theorem demo_step12 : Step demoSt1 demoSt2 :=
  Step.next_turn 10 (some 60) demoSt1 demoSt2 rfl

theorem demo_reach2 : ReachN demoSt2 2 :=
  ReachN.step demoSt1 demoSt2 1 demo_reach1 demo_step12

theorem demo_chain12 : NextTurnChain demoSt1 1 demoSt2 :=
  NextTurnChain.step demoSt1 demoSt1 demoSt2 0 10 (some 60)
    (NextTurnChain.refl demoSt1) rfl

/-- How the handler commits an operation result to the store: the state is
saved under the room key only on success; on an error nothing is saved. -/
def applyResult (s : Store) (room : String) (r : Except RoomErr RoomState) : Store :=
  match r with
  | .ok st => saveRoom s room st
  | .error _ => s

theorem submitTextCore_error_shape (nowMs : Int) (writer_id text : String)
    (st : RoomState) (err : RoomErr)
    (h : submitTextCore nowMs writer_id text st = .error err) :
    err = .conflict "turn paused" ∨ err = .conflict "no active turn" ∨
    err = .conflict "turn expired" ∨ err = .forbidden "not your turn" := by
  unfold submitTextCore at h
  cases hp : st.turn_paused with
  | true =>
    simp [hp] at h
    exact Or.inl h.symm
  | false =>
    cases he : st.turn_ends_at with
    | none =>
      simp [hp, he] at h
      exact Or.inr (Or.inl h.symm)
    | some e =>
      by_cases hl : e ≤ nowMs
      · simp [hp, he, hl] at h
        exact Or.inr (Or.inr (Or.inl h.symm))
      · by_cases hw : normalizeKey writer_id = "" ∨
            st.writers[st.current_writer_index]? ≠ some (normalizeKey writer_id)
        · simp [hp, he, hl, hw] at h
          exact Or.inr (Or.inr (Or.inr h.symm))
        · simp [hp, he, hl, hw] at h

/-- A stored room used for boundary and overwrite scenarios: one writer,
idle turn, `version = 5`, expiring at 999999999. -/
def oldRoom : RoomState :=
  { room_name := "x"
    activity_title := "x"
    room_mode := .PROPP
    prompt_seed := ""
    story_so_far := "old story"
    writers := ["Writer 1"]
    current_writer_index := 0
    turn_ends_at := none
    turn_paused := false
    turn_remaining_ms := none
    version := 5
    updated_at := 50
    expires_at := 999999999 }

/-- A store holding `oldRoom` under the code `x` and nothing else. -/
def store0 : Store := fun k => if k = "x" then some oldRoom else none

/-- A `create` request whose `room_name` collides with the stored room `x`. -/
def collideBody : CreateBody :=
  { room_name := "x", activity_title := "", room_mode := none, ttl_h := some 12 }

/-- A stored room whose `expires_at` is exactly 1000: used to probe the
expiry boundary. -/
def boundarySt : RoomState :=
  { room_name := "b"
    activity_title := "b"
    room_mode := .CONTINUA_TU
    prompt_seed := ""
    story_so_far := ""
    writers := []
    current_writer_index := 0
    turn_ends_at := none
    turn_paused := false
    turn_remaining_ms := none
    version := 1
    updated_at := 0
    expires_at := 1000 }

/-- C1 (counterexample): the claim that every reachable state satisfies
exactly one of the three modes fails at the state saved by `delete_room`:
after `create` then `delete_room`, the saved state has `turn_paused = true`
with `turn_remaining_ms = null` and `turn_ends_at = null`, so it is neither
active, nor paused (no banked remainder), nor idle (the paused flag is set):
it satisfies none of the three modes, not exactly one. -/
theorem C1_counterexample : Reachable demoDeleted ∧ ¬ ModeInvariant demoDeleted :=
  ⟨⟨1, demo_reach_deleted⟩, by unfold ModeInvariant; decide⟩

/-- C1 (amended): every room state reachable by successful coordinator
operations satisfies exactly one of the three modes (active / paused /
idle), except the state saved by `delete_room`, which instead has
`turn_paused = true` with `turn_remaining_ms = null` and
`turn_ends_at = null` and so satisfies none of them. -/
theorem C1_mode_invariant (st : RoomState) (h : Reachable st) :
    ModeInvariant st ∨ DeletedTurnShape st :=
  reachable_modeOrDeleted h

theorem C1_mode_invariant_witness : ModeInvariant demoSt1 ∨ DeletedTurnShape demoSt1 :=
  C1_mode_invariant demoSt1 ⟨1, demo_reach1⟩

/-- C2 (counterexample): the claim says every operation fails once
`now >= expires_at`, but the code tests `now() > st.expires_at` strictly: at
`now = expires_at` exactly, a stored room is still treated as live and
`join` succeeds and mutates it (appends a writer and bumps the version). -/
theorem C2_counterexample :
    (1000 : Int) ≥ boundarySt.expires_at ∧
    joinOp 1000 (some boundarySt) = .ok (joinCore 1000 boundarySt) ∧
    (joinCore 1000 boundarySt).writers ≠ boundarySt.writers ∧
    (joinCore 1000 boundarySt).version = boundarySt.version + 1 :=
  ⟨by decide, rfl, by decide, rfl⟩

/-- C2 (amended): for every room whose stored `expires_at` satisfies
`now > expires_at` (strictly), every operation on that room code returns
`Expired` (or `NotFound` once the record is gone) and performs no successful
mutation; `delete_room` saves nothing. At `now = expires_at` exactly the
room is still live. -/
theorem C2_expiry_terminal (st : RoomState) (nowMs : Int)
    (h : nowMs > st.expires_at) (turn_s : Option Int) (writer_id text : String) :
    getStateOp nowMs (some st) = .error .expired ∧
    joinOp nowMs (some st) = .error .expired ∧
    nextTurnOp nowMs turn_s (some st) = .error .expired ∧
    pauseTurnOp nowMs (some st) = .error .expired ∧
    resumeTurnOp nowMs (some st) = .error .expired ∧
    stopTurnOp nowMs (some st) = .error .expired ∧
    submitTextOp nowMs writer_id text (some st) = .error .expired ∧
    deleteRoomOp nowMs (some st) = none ∧
    getStateOp nowMs none = .error .notFound ∧
    joinOp nowMs none = .error .notFound := by
  refine ⟨?_, ?_, ?_, ?_, ?_, ?_, ?_, ?_, rfl, rfl⟩ <;>
    simp [getStateOp, joinOp, nextTurnOp, pauseTurnOp, resumeTurnOp, stopTurnOp,
      submitTextOp, deleteRoomOp, getRoomWithExpiry, h]

theorem C2_expiry_terminal_witness :
    getStateOp 2000 (some boundarySt) = .error .expired ∧
    joinOp 2000 (some boundarySt) = .error .expired ∧
    nextTurnOp 2000 none (some boundarySt) = .error .expired ∧
    pauseTurnOp 2000 (some boundarySt) = .error .expired ∧
    resumeTurnOp 2000 (some boundarySt) = .error .expired ∧
    stopTurnOp 2000 (some boundarySt) = .error .expired ∧
    submitTextOp 2000 "w" "t" (some boundarySt) = .error .expired ∧
    deleteRoomOp 2000 (some boundarySt) = none ∧
    getStateOp 2000 none = .error .notFound ∧
    joinOp 2000 none = .error .notFound :=
  C2_expiry_terminal boundarySt 2000 (by decide) none "w" "t"

/-- C4: `version` is exactly 1 after `create`, every successful mutating
operation (join, next_turn, pause_turn, resume_turn, stop_turn, submit_text,
delete_room) increments it by exactly 1, and a state reached by `n`
successful mutations has `version = n + 1` — so the version never decreases
and never repeats along a run. -/
theorem C4_version_monotonic :
    (∀ (nowMs : Int) (randHex : String) (b : CreateBody),
      (createState nowMs randHex b).2.version = 1) ∧
    (∀ st st' : RoomState, Step st st' → st'.version = st.version + 1) ∧
    (∀ (st : RoomState) (n : Nat), ReachN st n → st.version = n + 1) :=
  ⟨fun _ _ _ => rfl, fun _ _ h => step_version h, fun _ _ h => reachN_version h⟩

theorem C4_version_monotonic_witness :
    demoSt1.version = demoSt0.version + 1 ∧ demoSt2.version = 2 + 1 :=
  ⟨C4_version_monotonic.2.1 demoSt0 demoSt1 demo_step01,
   C4_version_monotonic.2.2 demoSt2 2 demo_reach2⟩

/-- C5: a successful `next_turn` leaves `writers` unchanged and sets
`current_writer_index` to `(previous + 1) mod N`; `k ≥ 1` consecutive
successful `next_turn` calls land on `(start + k) mod N`, so the indices are
visited cyclically in order; on every reachable state the index is 0 when
`writers` is empty and lies in `[0, N)` otherwise; and `next_turn` on a live
room with no writers returns `Conflict`. -/
theorem C5_round_robin :
    (∀ (nowMs : Int) (turn_s : Option Int) (st st' : RoomState),
      nextTurnOp nowMs turn_s (some st) = .ok st' →
      st'.writers = st.writers ∧
      st'.current_writer_index = (st.current_writer_index + 1) % st.writers.length) ∧
    (∀ (st : RoomState) (k : Nat) (st' : RoomState), NextTurnChain st (k + 1) st' →
      st'.writers = st.writers ∧
      st'.current_writer_index = (st.current_writer_index + (k + 1)) % st.writers.length) ∧
    (∀ st : RoomState, Reachable st →
      (st.writers = [] → st.current_writer_index = 0) ∧
      (st.writers ≠ [] → st.current_writer_index < st.writers.length)) ∧
    (∀ (nowMs : Int) (turn_s : Option Int) (st : RoomState),
      ¬ nowMs > st.expires_at → st.writers = [] →
      nextTurnOp nowMs turn_s (some st) = .error (.conflict "no writers yet")) := by
  refine ⟨?_, ?_, ?_, ?_⟩
  · intro nowMs turn_s st st' hok
    obtain ⟨-, -, rfl⟩ := (nextTurnOp_ok_iff nowMs turn_s st st').mp hok
    exact ⟨rfl, rfl⟩
  · intro st k st' hc
    rcases nextTurnChain_index hc with ⟨hk, -⟩ | ⟨-, hidx⟩
    · exact absurd hk (Nat.succ_ne_zero k)
    · exact ⟨nextTurnChain_writers hc, hidx⟩
  · intro st h
    exact reachable_indexInvariant h
  · intro nowMs turn_s st hlive hw
    simp [nextTurnOp, getRoomWithExpiry, nextTurnCore, hlive, hw]

theorem C5_round_robin_witness :
    (demoSt2.writers = demoSt1.writers ∧
      demoSt2.current_writer_index =
        (demoSt1.current_writer_index + 1) % demoSt1.writers.length) ∧
    (demoSt2.writers = demoSt1.writers ∧
      demoSt2.current_writer_index =
        (demoSt1.current_writer_index + (0 + 1)) % demoSt1.writers.length) ∧
    ((demoSt1.writers = [] → demoSt1.current_writer_index = 0) ∧
      (demoSt1.writers ≠ [] → demoSt1.current_writer_index < demoSt1.writers.length)) ∧
    nextTurnOp 8 none (some demoSt0) = .error (.conflict "no writers yet") :=
  ⟨C5_round_robin.1 10 (some 60) demoSt1 demoSt2 rfl,
   C5_round_robin.2.1 demoSt1 0 demoSt2 demo_chain12,
   C5_round_robin.2.2.1 demoSt1 ⟨1, demo_reach1⟩,
   C5_round_robin.2.2.2 8 none demoSt0 (by decide) rfl⟩

/-- C3: on a live reachable room, `submit_text` succeeds exactly when the
room is not paused, has an active turn with `turn_ends_at > now`, and the
caller's trimmed writer id equals `writers[current_writer_index]`; every
failure on a live room is a `Forbidden` (wrong writer) or a `Conflict`
(paused, no active turn, or lapsed deadline), and an error saves nothing to
the store. -/
theorem C3_submit_ownership (st : RoomState) (h : Reachable st) (nowMs : Int)
    (writer_id text : String) (hlive : ¬ nowMs > st.expires_at) :
    ((∃ st', submitTextOp nowMs writer_id text (some st) = .ok st') ↔
      (st.turn_paused = false ∧ ∃ e, st.turn_ends_at = some e ∧ nowMs < e ∧
        st.writers[st.current_writer_index]? = some (normalizeKey writer_id))) ∧
    (∀ err, submitTextOp nowMs writer_id text (some st) = .error err →
      (∃ m, err = RoomErr.forbidden m) ∨ (∃ m, err = RoomErr.conflict m)) ∧
    (∀ (s : Store) (room : String) (err : RoomErr),
      submitTextOp nowMs writer_id text (some st) = .error err →
      applyResult s room (submitTextOp nowMs writer_id text (some st)) = s) := by
  have hcore : submitTextOp nowMs writer_id text (some st) =
      submitTextCore nowMs writer_id text st := by
    simp [submitTextOp, getRoomWithExpiry, hlive]
  refine ⟨⟨?_, ?_⟩, ?_, ?_⟩
  · rintro ⟨st', hok⟩
    obtain ⟨-, hp, e, he, hlt, -, hget, -⟩ :=
      (submitTextOp_ok_iff nowMs writer_id text st st').mp hok
    exact ⟨hp, e, he, hlt, hget⟩
  · rintro ⟨hp, e, he, hlt, hget⟩
    have hmem : normalizeKey writer_id ∈ st.writers := by
      obtain ⟨hi, hv⟩ := List.getElem?_eq_some.mp hget
      exact hv ▸ List.getElem_mem hi
    exact ⟨_, (submitTextOp_ok_iff nowMs writer_id text st _).mpr
      ⟨hlive, hp, e, he, hlt, reachable_writersNonempty h _ hmem, hget, rfl⟩⟩
  · intro err herr
    rw [hcore] at herr
    rcases submitTextCore_error_shape nowMs writer_id text st err herr with
      hc | hc | hc | hc
    · exact Or.inr ⟨_, hc⟩
    · exact Or.inr ⟨_, hc⟩
    · exact Or.inr ⟨_, hc⟩
    · exact Or.inl ⟨_, hc⟩
  · intro s room err herr
    rw [herr]
    rfl

theorem C3_submit_ownership_witness :
    ((∃ st', submitTextOp 20 "Writer 1" "hi" (some demoSt2) = .ok st') ↔
      (demoSt2.turn_paused = false ∧ ∃ e, demoSt2.turn_ends_at = some e ∧ (20 : Int) < e ∧
        demoSt2.writers[demoSt2.current_writer_index]? = some (normalizeKey "Writer 1"))) ∧
    (∀ err, submitTextOp 20 "Writer 1" "hi" (some demoSt2) = .error err →
      (∃ m, err = RoomErr.forbidden m) ∨ (∃ m, err = RoomErr.conflict m)) ∧
    (∀ (s : Store) (room : String) (err : RoomErr),
      submitTextOp 20 "Writer 1" "hi" (some demoSt2) = .error err →
      applyResult s room (submitTextOp 20 "Writer 1" "hi" (some demoSt2)) = s) :=
  C3_submit_ownership demoSt2 ⟨2, demo_reach2⟩ 20 "Writer 1" "hi" (by decide)

/-- C6: pausing an active turn with deadline `e` at time `t` banks
`turn_remaining_ms = max(0, e - t)` and clears `turn_ends_at`; resuming at
time `t2` restarts the clock at `turn_ends_at = t2 + max(0, e - t)`; hence
for an unlapsed turn (`t ≤ e`) that started at `s` with duration `d`
(`e = s + d`), the active time before the pause plus the active time granted
after the resume equals `d`, the original turn duration. -/
theorem C6_pause_resume (st : RoomState) (e t t2 : Int)
    (hp : st.turn_paused = false) (he : st.turn_ends_at = some e)
    (hlive : ¬ t > st.expires_at) :
    ∃ stP, pauseTurnOp t (some st) = .ok stP ∧
      stP.turn_remaining_ms = some (max 0 (e - t)) ∧
      stP.turn_ends_at = none ∧
      stP.turn_paused = true ∧
      stP.expires_at = st.expires_at ∧
      (¬ t2 > stP.expires_at →
        ∃ stR, resumeTurnOp t2 (some stP) = .ok stR ∧
          stR.turn_ends_at = some (t2 + max 0 (e - t)) ∧
          (∀ s d : Int, e = s + d → t ≤ e →
            (t - s) + ((t2 + max 0 (e - t)) - t2) = d)) := by
  refine ⟨_, (pauseTurnOp_ok_iff t st _).mpr ⟨hlive, hp, e, he, rfl⟩,
    rfl, rfl, rfl, rfl, ?_⟩
  intro ht2
  have hmax : max 0 (max 0 (e - t)) = max 0 (e - t) :=
    max_eq_right (le_max_left 0 (e - t))
  refine ⟨_, (resumeTurnOp_ok_iff t2 _ _).mpr ⟨ht2, rfl, max 0 (e - t), rfl, rfl⟩,
    by simp [bump, hmax], ?_⟩
  intro s d hsd hte
  have h1 : max 0 (e - t) = e - t := max_eq_right (by omega)
  rw [h1]
  omega

theorem C6_pause_resume_witness :
    ∃ stP, pauseTurnOp 30010 (some demoSt2) = .ok stP ∧
      stP.turn_remaining_ms = some (max 0 (60010 - 30010)) ∧
      stP.turn_ends_at = none ∧
      stP.turn_paused = true ∧
      stP.expires_at = demoSt2.expires_at ∧
      (¬ (40000 : Int) > stP.expires_at →
        ∃ stR, resumeTurnOp 40000 (some stP) = .ok stR ∧
          stR.turn_ends_at = some (40000 + max 0 (60010 - 30010)) ∧
          (∀ s d : Int, (60010 : Int) = s + d → (30010 : Int) ≤ 60010 →
            ((30010 : Int) - s) + ((40000 + max 0 ((60010 : Int) - 30010)) - 40000) = d)) :=
  C6_pause_resume demoSt2 60010 30010 40000 rfl (by decide) (by decide)

/-- C7 (counterexample): `create` does not generate a fresh unique code nor
regenerate on collision: the room code is taken from the request's
`room_name`, and saving overwrites an existing live room under that code —
here the live room `x` with `version = 5` is replaced by a fresh
`version = 1` state. -/
theorem C7_counterexample :
    store0 "x" = some oldRoom ∧
    oldRoom.version = 5 ∧
    (createOp 100 "fresh1" collideBody store0).2.1 = "x" ∧
    (createOp 100 "fresh1" collideBody store0).1 "x" =
      some (createState 100 "fresh1" collideBody).2 ∧
    (createState 100 "fresh1" collideBody).2.version = 1 ∧
    (createOp 100 "fresh1" collideBody store0).1 "x" ≠ some oldRoom :=
  ⟨rfl, rfl, by decide, by decide, rfl, by decide⟩

/-- C7 (amended): `create` takes the room code from the trimmed `room_name`
when non-empty (otherwise the generated random hex), saves the new state
unconditionally — overwriting any existing room under that code, with no
collision check — and the produced `RoomState` is Idle (`turn_ends_at`
null, not paused, no remaining, no writers) with `version = 1` and
`expires_at = now + clamp(ttl_h, 1, 48; default 12) hours`; the room code
and `expires_at` are returned, and no other store key is touched. -/
theorem C7_create (nowMs : Int) (randHex : String) (b : CreateBody) (s : Store) :
    (createOp nowMs randHex b s).2.1 =
      (if normalizeKey b.room_name ≠ "" then normalizeKey b.room_name else randHex) ∧
    (createOp nowMs randHex b s).1 (createOp nowMs randHex b s).2.1 =
      some (createState nowMs randHex b).2 ∧
    (∀ k, k ≠ (createOp nowMs randHex b s).2.1 →
      (createOp nowMs randHex b s).1 k = s k) ∧
    (createState nowMs randHex b).2.turn_ends_at = none ∧
    (createState nowMs randHex b).2.turn_paused = false ∧
    (createState nowMs randHex b).2.turn_remaining_ms = none ∧
    (createState nowMs randHex b).2.writers = [] ∧
    (createState nowMs randHex b).2.version = 1 ∧
    (createState nowMs randHex b).2.expires_at =
      nowMs + clampNumber b.ttl_h 12 1 48 * 3600 * 1000 ∧
    (createOp nowMs randHex b s).2.2 = (createState nowMs randHex b).2.expires_at := by
  refine ⟨rfl, ?_, ?_, rfl, rfl, rfl, rfl, rfl, rfl, rfl⟩
  · simp [createOp, saveRoom]
  · intro k hk
    simp only [createOp] at hk ⊢
    simp [saveRoom, hk]

theorem C7_create_witness :
    (createOp 100 "fresh1" demoBody store0).2.1 =
      (if normalizeKey demoBody.room_name ≠ "" then normalizeKey demoBody.room_name
       else "fresh1") ∧
    (createOp 100 "fresh1" demoBody store0).1 (createOp 100 "fresh1" demoBody store0).2.1 =
      some (createState 100 "fresh1" demoBody).2 ∧
    (createOp 100 "fresh1" demoBody store0).1 "x" = store0 "x" :=
  ⟨(C7_create 100 "fresh1" demoBody store0).1,
   (C7_create 100 "fresh1" demoBody store0).2.1,
   (C7_create 100 "fresh1" demoBody store0).2.2.1 "x" (by decide)⟩

/-- C9: a successful `join` on a live room appends exactly the synthesized
writer `Writer N` with `N = previous count + 1`, bumps `version` by 1 and
refreshes `updated_at`, and changes nothing else: names, mode, seed, story,
index, all turn fields and `expires_at` are unchanged; `join` on a missing
room fails `NotFound` and on an expired room fails `Expired`. -/
theorem C9_join_frame (st : RoomState) (nowMs : Int)
    (hlive : ¬ nowMs > st.expires_at) :
    joinOp nowMs (some st) = .ok (joinCore nowMs st) ∧
    (joinCore nowMs st).writers =
      st.writers ++ ["Writer " ++ toString (st.writers.length + 1)] ∧
    (joinCore nowMs st).version = st.version + 1 ∧
    (joinCore nowMs st).updated_at = nowMs ∧
    (joinCore nowMs st).room_name = st.room_name ∧
    (joinCore nowMs st).activity_title = st.activity_title ∧
    (joinCore nowMs st).room_mode = st.room_mode ∧
    (joinCore nowMs st).prompt_seed = st.prompt_seed ∧
    (joinCore nowMs st).story_so_far = st.story_so_far ∧
    (joinCore nowMs st).current_writer_index = st.current_writer_index ∧
    (joinCore nowMs st).turn_ends_at = st.turn_ends_at ∧
    (joinCore nowMs st).turn_paused = st.turn_paused ∧
    (joinCore nowMs st).turn_remaining_ms = st.turn_remaining_ms ∧
    (joinCore nowMs st).expires_at = st.expires_at ∧
    joinOp nowMs none = .error .notFound ∧
    (∀ st2 : RoomState, nowMs > st2.expires_at →
      joinOp nowMs (some st2) = .error .expired) := by
  refine ⟨?_, rfl, rfl, rfl, rfl, rfl, rfl, rfl, rfl, rfl, rfl, rfl, rfl, rfl, rfl, ?_⟩
  · simp [joinOp, getRoomWithExpiry, hlive]
  · intro st2 h2
    simp [joinOp, getRoomWithExpiry, h2]

theorem C9_join_frame_witness :
    joinOp 5 (some demoSt0) = .ok (joinCore 5 demoSt0) ∧
    (joinCore 5 demoSt0).writers =
      demoSt0.writers ++ ["Writer " ++ toString (demoSt0.writers.length + 1)] ∧
    (joinCore 5 demoSt0).version = demoSt0.version + 1 ∧
    (joinCore 5 demoSt0).updated_at = 5 ∧
    (joinCore 5 demoSt0).room_name = demoSt0.room_name ∧
    (joinCore 5 demoSt0).activity_title = demoSt0.activity_title ∧
    (joinCore 5 demoSt0).room_mode = demoSt0.room_mode ∧
    (joinCore 5 demoSt0).prompt_seed = demoSt0.prompt_seed ∧
    (joinCore 5 demoSt0).story_so_far = demoSt0.story_so_far ∧
    (joinCore 5 demoSt0).current_writer_index = demoSt0.current_writer_index ∧
    (joinCore 5 demoSt0).turn_ends_at = demoSt0.turn_ends_at ∧
    (joinCore 5 demoSt0).turn_paused = demoSt0.turn_paused ∧
    (joinCore 5 demoSt0).turn_remaining_ms = demoSt0.turn_remaining_ms ∧
    (joinCore 5 demoSt0).expires_at = demoSt0.expires_at ∧
    joinOp 5 none = .error .notFound ∧
    (∀ st2 : RoomState, (5 : Int) > st2.expires_at →
      joinOp 5 (some st2) = .error .expired) :=
  C9_join_frame demoSt0 5 (by decide)

/-- C10: on a live room, `pause_turn` returns `Conflict` exactly when the
room is already paused or has no `turn_ends_at`: the deadline is not
re-validated, so on a lapsed but unreaped turn (`turn_ends_at ≤ now`, not
paused) `pause_turn` succeeds and banks `turn_remaining_ms = 0`, after which
`resume_turn` succeeds and yields `turn_ends_at = now`, an immediately
lapsed turn. -/
theorem C10_pause_lapsed (st : RoomState) (nowMs : Int)
    (hlive : ¬ nowMs > st.expires_at) :
    ((∃ m, pauseTurnOp nowMs (some st) = .error (.conflict m)) ↔
      (st.turn_paused = true ∨ st.turn_ends_at = none)) ∧
    (∀ e : Int, st.turn_ends_at = some e → st.turn_paused = false → e ≤ nowMs →
      ∃ stP, pauseTurnOp nowMs (some st) = .ok stP ∧
        stP.turn_remaining_ms = some 0 ∧
        stP.turn_paused = true ∧
        stP.turn_ends_at = none ∧
        stP.expires_at = st.expires_at ∧
        (∀ t2 : Int, ¬ t2 > stP.expires_at →
          ∃ stR, resumeTurnOp t2 (some stP) = .ok stR ∧
            stR.turn_ends_at = some t2)) := by
  constructor
  · constructor
    · rintro ⟨m, hm⟩
      cases hp : st.turn_paused with
      | true => exact Or.inl rfl
      | false =>
        cases he : st.turn_ends_at with
        | none => exact Or.inr rfl
        | some e =>
          rw [(by simp [pauseTurnOp, getRoomWithExpiry, pauseTurnCore, hlive, hp, he] :
            pauseTurnOp nowMs (some st) = .ok (bump nowMs
              { st with turn_paused := true,
                        turn_remaining_ms := some (max 0 (e - nowMs)),
                        turn_ends_at := none }))] at hm
          cases hm
    · rintro (hp | he)
      · exact ⟨"already paused", by simp [pauseTurnOp, getRoomWithExpiry, pauseTurnCore, hlive, hp]⟩
      · cases hp : st.turn_paused with
        | true => exact ⟨"already paused",
            by simp [pauseTurnOp, getRoomWithExpiry, pauseTurnCore, hlive, hp]⟩
        | false => exact ⟨"no active turn",
            by simp [pauseTurnOp, getRoomWithExpiry, pauseTurnCore, hlive, hp, he]⟩
  · intro e he hp hle
    have hmax : max 0 (e - nowMs) = 0 := max_eq_left (by omega)
    refine ⟨_, (pauseTurnOp_ok_iff nowMs st _).mpr ⟨hlive, hp, e, he, rfl⟩,
      by simp [bump, hmax], rfl, rfl, rfl, ?_⟩
    intro t2 ht2
    refine ⟨_, (resumeTurnOp_ok_iff t2 _ _).mpr
      ⟨ht2, rfl, max 0 (e - nowMs), rfl, rfl⟩, ?_⟩
    simp [bump, hmax]

theorem C10_pause_lapsed_witness :
    ((∃ m, pauseTurnOp 70000 (some demoSt2) = .error (.conflict m)) ↔
      (demoSt2.turn_paused = true ∨ demoSt2.turn_ends_at = none)) ∧
    (∀ e : Int, demoSt2.turn_ends_at = some e → demoSt2.turn_paused = false →
      e ≤ 70000 →
      ∃ stP, pauseTurnOp 70000 (some demoSt2) = .ok stP ∧
        stP.turn_remaining_ms = some 0 ∧
        stP.turn_paused = true ∧
        stP.turn_ends_at = none ∧
        stP.expires_at = demoSt2.expires_at ∧
        (∀ t2 : Int, ¬ t2 > stP.expires_at →
          ∃ stR, resumeTurnOp t2 (some stP) = .ok stR ∧
            stR.turn_ends_at = some t2)) :=
  C10_pause_lapsed demoSt2 70000 (by decide)

end Fantasmia
